import Mathlib

/-!
Verification of the visitor-boilerplate generator (derive-generic-visitor).

This file shallowly embeds the code generated by the derive macros and the
runtime library functions of the crate, and proves the specification claims
about them. Visitors are modelled as state-passing functions: a visitor with
state type sigma visiting values of type alpha with break type beta is a
function from state and value to updated state and a control-flow result,
mirroring Rust mutation of the visitor through a mutable reference together
with the returned ControlFlow value. Trace instantiations (state = list of
visited values or emitted events) make the sequence of visit calls observable.
-/

namespace DeriveGenericVisitor

/-- Embedding of the Rust standard type used by the crate for early return,
with a Continue payload and a Break payload. -/
inductive ControlFlow (β : Type) (γ : Type) where
  | Continue (c : γ)
  | Break (b : β)
deriving DecidableEq, Repr

/-- Embedding of ControlFlow map_continue, used by the generated
visit_by_val method of a visitable-group visitor trait. -/
def map_continue (f : γ → δ) : ControlFlow β γ → ControlFlow β δ
  | .Continue c => .Continue (f c)
  | .Break b => .Break b

/-- A visitor in the state-passing model: takes the visitor state and the
visited value, returns the updated state and the control-flow signal. -/
abbrev VisitFn (σ α β : Type) := σ → α → σ × ControlFlow β Unit

/-- The trace visitor: its state is the list of values visited so far, in
order; the control-flow result of each visit is prescribed by f. Used to make
the sequence of visit calls of a dispatch observable. -/
def traceVisit (f : α → ControlFlow β Unit) : VisitFn (List α) α β :=
  fun tr x => (tr ++ [x], f x)

/-- One field of a composite layout, as seen by the Drive derive macro in
drive.rs: the field value and whether it carries the skip attribute. -/
structure FieldSpec (α : Type) where
  value : α
  skip : Bool
deriving DecidableEq, Repr

/-- One variant of a composite layout: its skip attribute and its ordered
fields. A struct is a layout with exactly one variant. -/
structure VariantSpec (α : Type) where
  skip : Bool
  fields : List (FieldSpec α)
deriving DecidableEq, Repr

/-- A composite layout, as consumed by impl_drive in drive.rs: the skip
attribute on the whole type, and the ordered variants. -/
structure TypeSpec (α : Type) where
  skip : Bool
  variants : List (VariantSpec α)
deriving DecidableEq, Repr

/-- The statements generated by visit_field / match_variant in drive.rs for
the fields of the matched variant. A skipped field produces no statement.
For a retained field the generated statement is
Visit::visit(visitor, field) WITHOUT a question mark (drive.rs line 182):
the returned ControlFlow is discarded and only the visitor state update
persists before the next field is visited. -/
def visitFields (visit : VisitFn σ α β) : List (FieldSpec α) → σ → σ
  | [], v => v
  | f :: fs, v => visitFields visit fs (if f.skip then v else (visit v f.value).1)

/-- The body of the drive_inner / drive_inner_mut method generated by
impl_drive in drive.rs: match on the value; a type marked skip generates no
arms, a variant marked skip generates no arm, so those values fall through
the wildcard arm and do nothing; the matched arm of a retained variant runs
the field statements; after the match the function returns Continue(()).
The value is the index k of its variant in the layout. -/
def drive_inner_derived (t : TypeSpec α) (k : Nat) (visit : VisitFn σ α β) (v : σ) :
    σ × ControlFlow β Unit :=
  if t.skip then (v, .Continue ())
  else
    match t.variants[k]? with
    | none => (v, .Continue ())
    | some var =>
      if var.skip then (v, .Continue ())
      else (visitFields visit var.fields v, .Continue ())

/-- The per-field statements as documented in the crate root (lib.rs doc
example of the Drive expansion, and as exercised by the test test_early_exit
in tests/simple.rs): each retained field is visited with
visitor.visit(field) FOLLOWED by a question mark, so a Break result returns
immediately and later fields are not visited. -/
def visitFieldsCF (visit : VisitFn σ α β) : List (FieldSpec α) → σ → σ × ControlFlow β Unit
  | [], v => (v, .Continue ())
  | f :: fs, v =>
    if f.skip then visitFieldsCF visit fs v
    else
      match visit v f.value with
      | (v2, .Continue _) => visitFieldsCF visit fs v2
      | (v2, .Break b) => (v2, .Break b)

/-- drive_inner as documented in the crate root of lib.rs: same dispatch as
drive_inner_derived but with the short-circuiting field statements. -/
def drive_inner_documented (t : TypeSpec α) (k : Nat) (visit : VisitFn σ α β) (v : σ) :
    σ × ControlFlow β Unit :=
  if t.skip then (v, .Continue ())
  else
    match t.variants[k]? with
    | none => (v, .Continue ())
    | some var =>
      if var.skip then (v, .Continue ())
      else visitFieldsCF visit var.fields v

/-- A two-field struct layout over Nat values, no skip attributes anywhere:
struct S(x1, x2) with x1 = 1 and x2 = 2. -/
def twoFieldStruct : TypeSpec Nat :=
  ⟨false, [⟨false, [⟨1, false⟩, ⟨2, false⟩]⟩]⟩

/-- A visitor that signals Break 0 on the first field value and Continue on
everything else. -/
def breakOnOne : Nat → ControlFlow Nat Unit :=
  fun x => if x = 1 then .Break 0 else .Continue ()

/-- Claim C1 (code bug evidence): for the two-field struct whose visitor
breaks on the first field, the drive_inner generated by drive.rs still
visits the second field and returns Continue(()), because visit_field emits
the visit call without a question mark; the expansion documented in lib.rs
(and relied on by the test test_early_exit) stops after the first field and
returns Break 0. -/
theorem c1_drive_derive_drops_break :
    drive_inner_derived twoFieldStruct 0 (traceVisit breakOnOne) []
      = ([1, 2], .Continue ())
    ∧ drive_inner_documented twoFieldStruct 0 (traceVisit breakOnOne) []
      = ([1], .Break 0) := by
  constructor <;> rfl

/-- The trace visitor visits exactly the non-skipped fields in declaration
order, whatever control flow f prescribes (the generated code discards it). -/
theorem visitFields_trace (f : α → ControlFlow β Unit) (fields : List (FieldSpec α))
    (tr : List α) :
    visitFields (traceVisit f) fields tr
      = tr ++ (fields.filter (fun fd => !fd.skip)).map FieldSpec.value := by
  induction fields generalizing tr with
  | nil => simp [visitFields]
  | cons fd fs ih =>
    by_cases h : fd.skip
    · simp [visitFields, h, ih]
    · simp only [visitFields, h, if_neg, Bool.not_eq_true, traceVisit, ih]
      simp [h, List.append_assoc]

/-- Claim C3: the sequence of visit calls produced by the generated per-field
dispatch equals the declared field order with skipped fields absent; only the
fields of the value actual variant (index k) are visited; and a type or
variant marked skip yields a dispatch with zero visit calls returning
Continue(()) even when it has fields. -/
theorem c3_field_order (t : TypeSpec α) (k : Nat) (f : α → ControlFlow β Unit)
    (tr : List α) :
    (t.skip = false → ∀ var, t.variants[k]? = some var → var.skip = false →
      drive_inner_derived t k (traceVisit f) tr
        = (tr ++ (var.fields.filter (fun fd => !fd.skip)).map FieldSpec.value,
           .Continue ()))
    ∧ (t.skip = true →
      drive_inner_derived t k (traceVisit f) tr = (tr, .Continue ()))
    ∧ (t.skip = false → ∀ var, t.variants[k]? = some var → var.skip = true →
      drive_inner_derived t k (traceVisit f) tr = (tr, .Continue ())) := by
  refine ⟨?_, ?_, ?_⟩
  · intro hts var hvar hvs
    simp [drive_inner_derived, hts, hvar, hvs, visitFields_trace]
  · intro hts
    simp [drive_inner_derived, hts]
  · intro hts var hvar hvs
    simp [drive_inner_derived, hts, hvar, hvs]

/-- Concrete instance of claim C3: a two-variant layout where the value is of
variant 1, whose fields are 5 (skipped), 6, 7; the dispatch visits exactly
6 then 7; and the same layout with the type-level skip attribute performs no
visit at all. -/
theorem c3_field_order_witness :
    drive_inner_derived
        ⟨false, [⟨false, [⟨4, false⟩]⟩, ⟨false, [⟨5, true⟩, ⟨6, false⟩, ⟨7, false⟩]⟩]⟩
        1 (traceVisit (fun (_ : Nat) => (ControlFlow.Continue () : ControlFlow Nat Unit)))
        ([] : List Nat)
      = ([] ++ ((([⟨5, true⟩, ⟨6, false⟩, ⟨7, false⟩] : List (FieldSpec Nat)).filter
          (fun fd => !fd.skip)).map FieldSpec.value), ControlFlow.Continue ())
    ∧ drive_inner_derived
        ⟨true, [⟨false, [⟨4, false⟩]⟩]⟩ 0
        (traceVisit (fun (_ : Nat) => (ControlFlow.Continue () : ControlFlow Nat Unit)))
        ([] : List Nat)
      = ([], ControlFlow.Continue ()) := by
  constructor
  · exact (c3_field_order _ 1 _ []).1 rfl ⟨false, [⟨5, true⟩, ⟨6, false⟩, ⟨7, false⟩]⟩
      (by decide) rfl
  · exact (c3_field_order _ 0 _ []).2.1 rfl

/-- ASCII uppercase letter test, as used by the case-conversion library on
identifier characters. -/
def isAsciiUpper (c : Char) : Bool := 'A' ≤ c && c ≤ 'Z'

/-- ASCII lowercase letter test. -/
def isAsciiLower (c : Char) : Bool := 'a' ≤ c && c ≤ 'z'

/-- ASCII digit test. -/
def isAsciiDigit (c : Char) : Bool := '0' ≤ c && c ≤ '9'

/-- ASCII lowercasing of one character. -/
def toAsciiLower (c : Char) : Char :=
  if isAsciiUpper c then Char.ofNat (c.toNat + 32) else c

/-- Word-boundary test between two consecutive characters c1 and c2 (rest is
what follows c2), for the boundary set used by get_name in common.rs and
visit.rs: the Pascal-case defaults of the convert_case library
(LowerUpper, Acronym, LowerDigit, UpperDigit, DigitLower, DigitUpper)
minus UpperDigit and LowerDigit, which the code removes with
without_boundaries. So there is NO split between a letter and a following
digit; splits happen lower-to-upper, digit-to-letter, and before the last
upper of an acronym run followed by a lowercase letter. -/
def boundaryBetween (c1 c2 : Char) (rest : List Char) : Bool :=
  (isAsciiLower c1 && isAsciiUpper c2)
  || (isAsciiDigit c1 && isAsciiUpper c2)
  || (isAsciiDigit c1 && isAsciiLower c2)
  || (isAsciiUpper c1 && isAsciiUpper c2 &&
      (match rest with
       | c3 :: _ => isAsciiLower c3
       | [] => false))

/-- Split a character list into words at the boundaries of boundaryBetween;
cur holds the reversed current word. -/
def splitWordsAux (cur : List Char) : List Char → List (List Char)
  | [] => [cur.reverse]
  | [c] => [(c :: cur).reverse]
  | c1 :: c2 :: rest =>
    if boundaryBetween c1 c2 rest
    then (c1 :: cur).reverse :: splitWordsAux [] (c2 :: rest)
    else splitWordsAux (c1 :: cur) (c2 :: rest)

/-- The case conversion performed by get_name on a single-segment type name:
from Pascal casing (with the letter-to-digit boundaries removed) to snake
casing: lowercase every word and join with underscores. -/
def pascalToSnake (s : String) : String :=
  String.intercalate "_"
    ((splitWordsAux [] s.toList).map (fun w => String.mk (w.map toAsciiLower)))

/-- A Rust type as inspected by get_name: a path type with an optional
qualified-self and its path segment identifiers, or any other type shape. -/
inductive RsType where
  | path (hasQSelf : Bool) (segments : List String)
  | other (description : String)
deriving DecidableEq, Repr

/-- The condition checked by get_name in common.rs: a path type with no
qualified-self and exactly one segment. -/
def isSimpleSingleSegment : RsType → Bool
  | .path false [_] => true
  | _ => false

/-- A target descriptor: an optional explicit method-name fragment (the
ident-colon prefix) and the type, as parsed into NamedGenericTy in
common.rs. -/
structure NamedGenericTy where
  explicitName : Option String
  ty : RsType
deriving DecidableEq, Repr

/-- A configuration error produced during plan construction, carrying the
offending type the error is spanned to and its message. -/
inductive ConfigError where
  | cannotInferName (offending : RsType) (msg : String)
deriving DecidableEq, Repr

deriving instance DecidableEq for Except

/-- The error message emitted by get_name in common.rs. -/
def inferNameMsg : String :=
  "Cannot make up a method name for this type; provide one by writing `foo: ` before the type"

/-- get_name from common.rs (NamedGenericTy::get_name): use the explicit name
when given; otherwise, for a simple single-segment path type, convert the
segment identifier with the Pascal-to-snake conversion whose letter-to-digit
boundaries were removed; otherwise return a configuration error spanned to
the offending type. -/
def NamedGenericTy.get_name (t : NamedGenericTy) : Except ConfigError String :=
  match t.explicitName with
  | some n => .ok n
  | none =>
    match t.ty with
    | .path false [seg] => .ok (pascalToSnake seg)
    | ty => .error (.cannotInferName ty inferNameMsg)

/-- Outcome of the name computation in the Visit derive (visit.rs), where the
fallthrough branch of get_name is not an error value but a todo panic. -/
inductive NameOutcome where
  | ok (s : String)
  | panicked
deriving DecidableEq, Repr

/-- get_name from visit.rs (NamedTy::get_name): same inference as in
common.rs, except that a type that is not a simple single-segment path hits
the todo macro, i.e. a panic, not a configuration error. -/
def NamedTy.get_name (t : NamedGenericTy) : NameOutcome :=
  match t.explicitName with
  | some n => .ok n
  | none =>
    match t.ty with
    | .path false [seg] => .ok (pascalToSnake seg)
    | _ => .panicked

/-- The behavior assigned to a participant type of a visitable group
(visitable_group.rs TyVisitKind): skip, drive, or an overridable per-name
method, where skipDefault distinguishes override_skip from override. -/
inductive TyVisitKind where
  | Skip
  | Drive
  | Override (skipDefault : Bool) (name : String)
deriving DecidableEq, Repr

/-- The tag written in the macro invocation for a list of participant types
(visitable_group.rs VisitableTypeKind). -/
inductive VisitableTypeKind where
  | Skip
  | Drive
  | Override
  | OverrideSkip
deriving DecidableEq, Repr

/-- The participant-processing loop of Options::parse in visitable_group.rs:
every type listed under one tag is turned into its TyVisitKind, calling
get_name (with the question-mark operator) for the override kinds; the first
error aborts the whole parse, so targets after the failing one are not
processed. -/
def parseSetVisitableTypes (kind : VisitableTypeKind) :
    List NamedGenericTy → Except ConfigError (List (RsType × TyVisitKind))
  | [] => .ok []
  | t :: rest =>
    let k : Except ConfigError TyVisitKind :=
      match kind with
      | .Skip => .ok .Skip
      | .Drive => .ok .Drive
      | .Override => t.get_name.map (fun n => TyVisitKind.Override false n)
      | .OverrideSkip => t.get_name.map (fun n => TyVisitKind.Override true n)
    match k with
    | .error e => .error e
    | .ok k =>
      match parseSetVisitableTypes kind rest with
      | .error e => .error e
      | .ok out => .ok ((t.ty, k) :: out)

/-- Claim C2 counterexample: the type named HtmlParser5 does NOT infer to
html_parser_5. The code removes the letter-to-digit word boundaries
(without_boundaries in common.rs), so the digit is kept attached to the
preceding word. -/
theorem c2_counterexample :
    NamedGenericTy.get_name ⟨none, .path false ["HtmlParser5"]⟩
      ≠ Except.ok "html_parser_5" := by
  decide

/-- Claim C2 as amended: for a simple single-segment named type, the inferred
fragment converts upper-camel casing to snake casing with the boundaries
between a letter (upper or lower) and a following digit REMOVED, so a digit
suffix stays attached to the preceding word: HtmlParser5 infers to
html_parser5 (and an acronym run such as HTMLParser5 to html_parser5, and
Ty1 to ty1); inference is a pure function returning the same fragment on
every invocation with the same name. -/
theorem c2_name_inference_amended :
    NamedGenericTy.get_name ⟨none, .path false ["HtmlParser5"]⟩ = .ok "html_parser5"
    ∧ NamedGenericTy.get_name ⟨none, .path false ["HTMLParser5"]⟩ = .ok "html_parser5"
    ∧ NamedGenericTy.get_name ⟨none, .path false ["Ty1"]⟩ = .ok "ty1"
    ∧ NamedGenericTy.get_name ⟨none, .path false ["MyVisitor"]⟩ = .ok "my_visitor"
    ∧ ∀ t : NamedGenericTy, NamedGenericTy.get_name t = NamedGenericTy.get_name t := by
  refine ⟨by decide, by decide, by decide, by decide, fun t => rfl⟩

/-- A target type that is not a simple single-segment named type: a
two-segment path. -/
def badTy : RsType := .path false ["vec", "Vec"]

/-- A target descriptor needing inference on badTy. -/
def badTarget : NamedGenericTy := ⟨none, badTy⟩

/-- A well-formed target descriptor listed after the failing one. -/
def goodTarget : NamedGenericTy := ⟨none, .path false ["Node"]⟩

/-- Claim C5 counterexample: in the Visit derive path (visit.rs), a target
needing inference whose type is not a simple named type hits a todo panic,
not a configuration error; and in the visitable-group parse, the failure is
not scoped to the single target: the whole declaration aborts with the
error, so the later target in the same list is not processed at all. -/
theorem c5_counterexample :
    NamedTy.get_name badTarget = NameOutcome.panicked
    ∧ parseSetVisitableTypes .Override [badTarget, goodTarget]
        = Except.error (.cannotInferName badTy inferNameMsg) := by
  constructor <;> rfl

/-- Claim C5 as amended: a target descriptor needing an inferred name whose
type is not a simple single-segment named type fails; in the shared
common.rs path the failure is a configuration error that points at the
offending type and instructs the user to supply an explicit name, while in
the Visit derive path (visit.rs) it is an unimplemented-code panic; and in
both cases the first failure aborts plan construction for the whole
declaration, so the targets listed after it are not processed. -/
theorem c5_name_error_amended (t : NamedGenericTy) (rest : List NamedGenericTy)
    (h1 : t.explicitName = none) (h2 : isSimpleSingleSegment t.ty = false) :
    NamedGenericTy.get_name t = .error (.cannotInferName t.ty inferNameMsg)
    ∧ NamedTy.get_name t = .panicked
    ∧ parseSetVisitableTypes .Override (t :: rest)
        = .error (.cannotInferName t.ty inferNameMsg) := by
  have herr : NamedGenericTy.get_name t = .error (.cannotInferName t.ty inferNameMsg) := by
    unfold NamedGenericTy.get_name
    rw [h1]
    match ht : t.ty with
    | .path false [seg] => rw [ht] at h2; simp [isSimpleSingleSegment] at h2
    | .path false [] => rfl
    | .path false (a :: b :: l) => rfl
    | .path true segs => rfl
    | .other d => rfl
  refine ⟨herr, ?_, ?_⟩
  · unfold NamedTy.get_name
    rw [h1]
    match ht : t.ty with
    | .path false [seg] => rw [ht] at h2; simp [isSimpleSingleSegment] at h2
    | .path false [] => rfl
    | .path false (a :: b :: l) => rfl
    | .path true segs => rfl
    | .other d => rfl
  · unfold parseSetVisitableTypes
    rw [herr]
    rfl

/-- Concrete instance of the amended claim C5: the two-segment path target
with no explicit name yields the configuration error in the common.rs path,
the panic in the visit.rs path, and aborts the list before the later
target. -/
theorem c5_name_error_amended_witness :
    NamedGenericTy.get_name badTarget
        = .error (.cannotInferName badTarget.ty inferNameMsg)
    ∧ NamedTy.get_name badTarget = .panicked
    ∧ parseSetVisitableTypes .Override (badTarget :: [goodTarget])
        = .error (.cannotInferName badTarget.ty inferNameMsg) :=
  c5_name_error_amended badTarget [goodTarget] rfl (by decide)

/-- Events emitted by hook methods and by a traversal step, used to observe
call order: the enter hook, the exit hook, and an event stemming from the
recursive drive or visit_inner step. -/
inductive HookEvent (α : Type) where
  | enter (x : α)
  | exit (x : α)
  | step (x : α)
deriving DecidableEq, Repr

/-- An enter hook instrumented to record its invocation in the trace. -/
def enterTrace : List (HookEvent α) → α → List (HookEvent α) :=
  fun tr x => tr ++ [.enter x]

/-- An exit hook instrumented to record its invocation in the trace. -/
def exitTrace : List (HookEvent α) → α → List (HookEvent α) :=
  fun tr x => tr ++ [.exit x]

/-- How the tail of a generated visit method forwards the control flow of
the drive step: question mark on a Break, fresh Continue(()) after it. -/
def forwardFlow : ControlFlow β Unit → ControlFlow β Unit
  | .Continue _ => .Continue ()
  | .Break b => .Break b

/-- Body of the generated Visit impl for an Enter(name) target (visit.rs
impl_visit): call the enter hook, then the drive step with the question
mark, then return Continue(()). -/
def visit_with_enter (enterHook : σ → α → σ)
    (driveInner : σ → α → σ × ControlFlow β Unit) (v : σ) (x : α) :
    σ × ControlFlow β Unit :=
  let v1 := enterHook v x
  match driveInner v1 x with
  | (v2, .Continue _) => (v2, .Continue ())
  | (v2, .Break b) => (v2, .Break b)

/-- Body of the generated Visit impl for an Exit(name) target (visit.rs
impl_visit): the drive step with the question mark, then the exit hook, then
Continue(()); on a Break the method returns before the exit hook runs. -/
def visit_with_exit (exitHook : σ → α → σ)
    (driveInner : σ → α → σ × ControlFlow β Unit) (v : σ) (x : α) :
    σ × ControlFlow β Unit :=
  match driveInner v x with
  | (v1, .Continue _) => (exitHook v1 x, .Continue ())
  | (v1, .Break b) => (v1, .Break b)

/-- Default body of the generated visit_name method of a visitable-group
visitor trait for an Override participant not marked override_skip
(visitable_group.rs impl_visitable_group): enter hook, then visit_inner with
the question mark, then exit hook, then Continue(()). -/
def default_visit_method (enterHook exitHook : σ → α → σ)
    (visitInner : σ → α → σ × ControlFlow β Unit) (v : σ) (x : α) :
    σ × ControlFlow β Unit :=
  let v1 := enterHook v x
  match visitInner v1 x with
  | (v2, .Continue _) => (exitHook v2 x, .Continue ())
  | (v2, .Break b) => (v2, .Break b)

/-- Claim C4: with trace-instrumented hooks and a drive step that appends its
own events evts and returns flow: the Enter behavior calls the enter hook
exactly once, before the drive step, and forwards its flow; the Exit
behavior (and the group default visit method) calls the exit hook exactly
once after the step when the step continued, and never calls it when the
step broke, propagating the break unchanged. -/
theorem c4_enter_exit_hooks (x : α) (evts : List (HookEvent α))
    (flow : ControlFlow β Unit)
    (driveInner : List (HookEvent α) → α → List (HookEvent α) × ControlFlow β Unit)
    (h : ∀ tr, driveInner tr x = (tr ++ evts, flow)) :
    (∀ tr, visit_with_enter enterTrace driveInner tr x
      = ((tr ++ [.enter x]) ++ evts, forwardFlow flow))
    ∧ (∀ tr u, flow = .Continue u → visit_with_exit exitTrace driveInner tr x
      = ((tr ++ evts) ++ [.exit x], .Continue ()))
    ∧ (∀ tr b, flow = .Break b → visit_with_exit exitTrace driveInner tr x
      = (tr ++ evts, .Break b))
    ∧ (∀ tr u, flow = .Continue u →
      default_visit_method enterTrace exitTrace driveInner tr x
        = (((tr ++ [.enter x]) ++ evts) ++ [.exit x], .Continue ()))
    ∧ (∀ tr b, flow = .Break b →
      default_visit_method enterTrace exitTrace driveInner tr x
        = ((tr ++ [.enter x]) ++ evts, .Break b)) := by
  refine ⟨?_, ?_, ?_, ?_, ?_⟩
  · intro tr
    simp only [visit_with_enter, enterTrace]
    rw [h]
    cases flow <;> rfl
  · intro tr u hc
    simp only [visit_with_exit]
    rw [h, hc]
    rfl
  · intro tr b hb
    simp only [visit_with_exit]
    rw [h, hb]
  · intro tr u hc
    simp only [default_visit_method, enterTrace]
    rw [h, hc]
    rfl
  · intro tr b hb
    simp only [default_visit_method, enterTrace]
    rw [h, hb]

/-- A concrete drive step for the claim C4 instance: appends one step event
for the value 7 and continues. -/
def stepContinue7 : List (HookEvent Nat) → Nat → List (HookEvent Nat) × ControlFlow Nat Unit :=
  fun tr _ => (tr ++ [.step 7], .Continue ())

/-- A concrete drive step that appends one step event for the value 7 and
breaks with 3. -/
def stepBreak7 : List (HookEvent Nat) → Nat → List (HookEvent Nat) × ControlFlow Nat Unit :=
  fun tr _ => (tr ++ [.step 7], .Break 3)

/-- Concrete instance of claim C4: on a continuing drive step the exit hook
runs once, after the step; on a breaking step the default group visit method
keeps the enter event and the step events, emits no exit event, and returns
the break unchanged. -/
theorem c4_enter_exit_hooks_witness :
    visit_with_exit exitTrace stepContinue7 [] 7
      = (([] ++ [.step 7]) ++ [.exit 7], .Continue ())
    ∧ default_visit_method enterTrace exitTrace stepBreak7 [] 7
      = (([] ++ [HookEvent.enter 7]) ++ [.step 7], .Break 3) :=
  ⟨(c4_enter_exit_hooks 7 [.step 7] (.Continue ()) stepContinue7
      (fun _ => rfl)).2.1 [] () rfl,
   (c4_enter_exit_hooks 7 [.step 7] (.Break 3) stepBreak7
      (fun _ => rfl)).2.2.2.2 [] 3 rfl⟩

/-- Body of the drive method that impl_visitable_group generates on each
participant type for a fallible visitor-trait mode: Skip returns
Continue(()) without using the visitor; Drive calls the visitor visit_inner
on the value; Override (with or without the skip-default flag) calls the
visitor per-name visit method on the value and returns its result. -/
def participant_drive (kind : TyVisitKind)
    (visitInner visitName : σ → α → σ × ControlFlow β Unit) (v : σ) (x : α) :
    σ × ControlFlow β Unit :=
  match kind with
  | .Skip => (v, .Continue ())
  | .Drive => visitInner v x
  | .Override _ _ => visitName v x

/-- Body of the generated drive method for an infallible visitor-trait mode:
the method returns nothing, so only the visitor state results; Skip returns
the unit value leaving the visitor untouched. -/
def participant_drive_infallible (kind : TyVisitKind)
    (visitInner visitName : σ → α → σ) (v : σ) (x : α) : σ :=
  match kind with
  | .Skip => v
  | .Drive => visitInner v x
  | .Override _ _ => visitName v x

/-- Claim C6: for every participant and both calling conventions, the
generated drive method behaves per the behavior tag: Skip is an immediate
success (Continue(()) when fallible, unit when infallible) that leaves the
visitor untouched; Drive forwards to visit_inner; Override and
override_skip forward to the per-name visit method, result unchanged. -/
theorem c6_participant_dispatch
    (visitInner visitName : σ → α → σ × ControlFlow β Unit)
    (visitInnerI visitNameI : σ → α → σ) (v : σ) (x : α) :
    participant_drive .Skip visitInner visitName v x = (v, .Continue ())
    ∧ participant_drive .Drive visitInner visitName v x = visitInner v x
    ∧ (∀ sk name, participant_drive (.Override sk name) visitInner visitName v x
        = visitName v x)
    ∧ participant_drive_infallible .Skip visitInnerI visitNameI v x = v
    ∧ participant_drive_infallible .Drive visitInnerI visitNameI v x = visitInnerI v x
    ∧ (∀ sk name, participant_drive_infallible (.Override sk name) visitInnerI visitNameI v x
        = visitNameI v x) :=
  ⟨rfl, rfl, fun _ _ => rfl, rfl, rfl, fun _ _ => rfl⟩

/-- visit_by_val from the Visit trait in lib.rs: run visit with the question
mark, then return Continue(self); on a Break the visitor value is consumed
and only the break signal is returned. -/
def visit_by_val (visit : VisitFn σ α β) (s : σ) (x : α) : ControlFlow β σ :=
  match visit s x with
  | (s2, .Continue _) => .Continue s2
  | (_, .Break b) => .Break b

/-- visit_by_val_infallible from the Visit trait in lib.rs, available when
the Break type is the uninhabited Infallible type (embedded as Empty): its
match has only the Continue arm. -/
def visit_by_val_infallible (visit : VisitFn σ α Empty) (s : σ) (x : α) : σ :=
  match visit_by_val visit s x with
  | .Continue s2 => s2
  | .Break b => b.elim

/-- visit_by_val of a generated visitable-group visitor trait
(visitable_group.rs): self.visit(x).map_continue(move self), same shape with
map_continue. -/
def group_visit_by_val (visit : VisitFn σ α β) (s : σ) (x : α) : ControlFlow β σ :=
  let r := visit s x
  map_continue (fun _ => r.1) r.2

/-- visit_by_val_infallible of a generated visitable-group visitor trait:
match on group_visit_by_val with only the Continue arm, available when the
Break type is Infallible. -/
def group_visit_by_val_infallible (visit : VisitFn σ α Empty) (s : σ) (x : α) : σ :=
  match group_visit_by_val visit s x with
  | .Continue s2 => s2
  | .Break b => b.elim

/-- Claim C7: for a visitor whose Break type is the uninhabited Infallible
type, visit_by_val is always a Continue carrying exactly the value that
visit_by_val_infallible unwraps — the stop-signal branch is unreachable —
for every visitor function, state and input, in both the core Visit trait
and the generated visitable-group trait. -/
theorem c7_infallible_total (visit : VisitFn σ α Empty) (s : σ) (x : α) :
    visit_by_val visit s x
      = ControlFlow.Continue (visit_by_val_infallible visit s x)
    ∧ group_visit_by_val visit s x
      = ControlFlow.Continue (group_visit_by_val_infallible visit s x) := by
  constructor
  · unfold visit_by_val_infallible
    match hv : visit_by_val visit s x with
    | .Continue s2 => rfl
    | .Break b => exact b.elim
  · unfold group_visit_by_val_infallible
    match hv : group_visit_by_val visit s x with
    | .Continue s2 => rfl
    | .Break b => exact b.elim

/-- dyn_visitor::drive from dynamic.rs: notify the reflection visitor of the
Enter event, run the low-level per-field forwarding routine discarding its
(infallible) result, then notify the Exit event. -/
def dyn_drive (enterEvent exitEvent : σ → α → σ)
    (driveInner : σ → α → σ × ControlFlow Empty Unit) (v : σ) (x : α) : σ :=
  let v1 := enterEvent v x
  let v2 := (driveInner v1 x).1
  exitEvent v2 x

/-- dyn_visitor::drive_mut from dynamic.rs: identical shape over the mutable
forwarding routine. -/
def dyn_drive_mut (enterEvent exitEvent : σ → α → σ)
    (driveInnerMut : σ → α → σ × ControlFlow Empty Unit) (v : σ) (x : α) : σ :=
  let v1 := enterEvent v x
  let v2 := (driveInnerMut v1 x).1
  exitEvent v2 x

/-- Claim C8: through the dynamic-visitor shim, with trace-instrumented
enter and exit notifications and a forwarding routine that appends its own
events, the emitted order is always enter first, then the per-field
forwarding events, then exit, never interleaved, and the exit event is never
skipped — for drive and for drive_mut. -/
theorem c8_dyn_visitor_order (x : α) (evts : List (HookEvent α))
    (flow : ControlFlow Empty Unit)
    (inner : List (HookEvent α) → α → List (HookEvent α) × ControlFlow Empty Unit)
    (h : ∀ tr, inner tr x = (tr ++ evts, flow)) :
    (∀ tr, dyn_drive enterTrace exitTrace inner tr x
      = ((tr ++ [.enter x]) ++ evts) ++ [.exit x])
    ∧ (∀ tr, dyn_drive_mut enterTrace exitTrace inner tr x
      = ((tr ++ [.enter x]) ++ evts) ++ [.exit x]) := by
  constructor
  · intro tr
    simp only [dyn_drive, enterTrace]
    rw [h]
    rfl
  · intro tr
    simp only [dyn_drive_mut, enterTrace]
    rw [h]
    rfl

/-- A concrete forwarding routine for the claim C8 instance: appends one
step event for the value 9 and continues. -/
def dynStep9 : List (HookEvent Nat) → Nat → List (HookEvent Nat) × ControlFlow Empty Unit :=
  fun tr _ => (tr ++ [.step 9], .Continue ())

/-- Concrete instance of claim C8: driving the value 9 through the shim
emits enter 9, then the forwarding event, then exit 9, in that order. -/
theorem c8_dyn_visitor_order_witness :
    dyn_drive enterTrace exitTrace dynStep9 [] 9
      = (([] ++ [HookEvent.enter 9]) ++ [.step 9]) ++ [.exit 9]
    ∧ dyn_drive_mut enterTrace exitTrace dynStep9 [] 9
      = (([] ++ [HookEvent.enter 9]) ++ [.step 9]) ++ [.exit 9] :=
  ⟨(c8_dyn_visitor_order 9 [.step 9] (.Continue ()) dynStep9 (fun _ => rfl)).1 [],
   (c8_dyn_visitor_order 9 [.step 9] (.Continue ()) dynStep9 (fun _ => rfl)).2 []⟩

/-- A value of one of the built-in leaf types covered by the leaf_impl macro
invocations in basic_impls.rs: unit, bool, char, the unsigned integer types
u8 through usize, and the signed integer types i8 through isize. -/
inductive LeafValue where
  | unit
  | bool (b : Bool)
  | char (c : Char)
  | u8 (n : Nat)
  | u16 (n : Nat)
  | u32 (n : Nat)
  | u64 (n : Nat)
  | u128 (n : Nat)
  | usize (n : Nat)
  | i8 (n : Int)
  | i16 (n : Int)
  | i32 (n : Int)
  | i64 (n : Int)
  | i128 (n : Int)
  | isize (n : Int)
deriving DecidableEq, Repr

/-- The drive_inner body generated by leaf_impl in basic_impls.rs for every
leaf type: the visitor argument is ignored and the body is Continue(()). -/
def leaf_drive_inner (_x : LeafValue) (v : σ) : σ × ControlFlow β Unit :=
  (v, .Continue ())

/-- The drive_inner_mut body generated by leaf_impl: same body; the value is
also returned to record that the (never invoked) visitor cannot have
mutated it. -/
def leaf_drive_inner_mut (x : LeafValue) (v : σ) :
    LeafValue × σ × ControlFlow β Unit :=
  (x, v, .Continue ())

/-- Claim C9: for every value of a built-in leaf type and every visitor
state, drive_inner and drive_inner_mut return Continue(()) and never invoke
the visitor: the visitor state comes back untouched (and the mutable drive
leaves the value unchanged). -/
theorem c9_leaf_noop (x : LeafValue) (v : σ) :
    leaf_drive_inner x v = (v, (ControlFlow.Continue () : ControlFlow β Unit))
    ∧ leaf_drive_inner_mut x v
      = (x, v, (ControlFlow.Continue () : ControlFlow β Unit)) :=
  ⟨rfl, rfl⟩

/-- drive_iter from lib.rs: visit each element of the iterable in iteration
order with the question mark, then Continue(()). -/
def drive_iter (visit : VisitFn σ α β) : σ → List α → σ × ControlFlow β Unit
  | v, [] => (v, .Continue ())
  | v, x :: xs =>
    match visit v x with
    | (v2, .Continue _) => drive_iter visit v2 xs
    | (v2, .Break b) => (v2, .Break b)

/-- drive_iter_mut from lib.rs: the same loop over the mutable iterator; in
the state-passing model the element mutations performed by the visitor are
part of the visitor state update. -/
def drive_iter_mut (visit : VisitFn σ α β) : σ → List α → σ × ControlFlow β Unit
  | v, [] => (v, .Continue ())
  | v, x :: xs =>
    match visit v x with
    | (v2, .Continue _) => drive_iter_mut visit v2 xs
    | (v2, .Break b) => (v2, .Break b)

/-- With the trace visitor, drive_iter on an all-continue list visits every
element in iteration order and continues. -/
theorem drive_iter_trace_continue (f : α → ControlFlow β Unit) (l : List α)
    (tr : List α) (h : ∀ x ∈ l, f x = .Continue ()) :
    drive_iter (traceVisit f) tr l = (tr ++ l, .Continue ()) := by
  induction l generalizing tr with
  | nil => simp [drive_iter]
  | cons x xs ih =>
    have hx : f x = .Continue () := h x (by simp)
    simp only [drive_iter, traceVisit, hx]
    rw [ih _ (fun y hy => h y (by simp [hy]))]
    simp

/-- With the trace visitor, drive_iter stops at the first breaking element:
it visits the prefix and that element, returns the break unchanged, and
visits nothing after it. -/
theorem drive_iter_trace_break (f : α → ControlFlow β Unit) (l1 l2 : List α)
    (x : α) (b : β) (tr : List α) (h1 : ∀ y ∈ l1, f y = .Continue ())
    (hx : f x = .Break b) :
    drive_iter (traceVisit f) tr (l1 ++ x :: l2) = ((tr ++ l1) ++ [x], .Break b) := by
  induction l1 generalizing tr with
  | nil =>
    simp only [List.nil_append, drive_iter, traceVisit, hx]
    simp
  | cons y ys ih =>
    have hy : f y = .Continue () := h1 y (by simp)
    simp only [List.cons_append, drive_iter, traceVisit, hy, List.append_eq]
    rw [ih _ (fun z hz => h1 z (by simp [hz]))]
    simp

/-- The same two facts for drive_iter_mut, whose body is identical. -/
theorem drive_iter_mut_trace (f : α → ControlFlow β Unit) (l : List α) (tr : List α) :
    drive_iter_mut (traceVisit f) tr l = drive_iter (traceVisit f) tr l := by
  induction l generalizing tr with
  | nil => rfl
  | cons x xs ih =>
    simp only [drive_iter_mut, drive_iter, traceVisit]
    cases f x with
    | Continue c => exact ih _
    | Break b => rfl

/-- Claim C10: drive_iter and drive_iter_mut visit the elements in iteration
order; they return Continue(()) when every visit continues, and when the
list splits as l1 and then a first breaking element x, they visit exactly l1
and then x, return that Break unchanged, and visit no later element. -/
theorem c10_drive_iter (f : α → ControlFlow β Unit) (l l1 l2 : List α) (x : α)
    (b : β) (tr : List α) :
    ((∀ y ∈ l, f y = .Continue ()) →
      drive_iter (traceVisit f) tr l = (tr ++ l, .Continue ())
      ∧ drive_iter_mut (traceVisit f) tr l = (tr ++ l, .Continue ()))
    ∧ ((∀ y ∈ l1, f y = .Continue ()) → f x = .Break b →
      drive_iter (traceVisit f) tr (l1 ++ x :: l2) = ((tr ++ l1) ++ [x], .Break b)
      ∧ drive_iter_mut (traceVisit f) tr (l1 ++ x :: l2)
        = ((tr ++ l1) ++ [x], .Break b)) := by
  constructor
  · intro h
    refine ⟨drive_iter_trace_continue f l tr h, ?_⟩
    rw [drive_iter_mut_trace]
    exact drive_iter_trace_continue f l tr h
  · intro h1 hx
    refine ⟨drive_iter_trace_break f l1 l2 x b tr h1 hx, ?_⟩
    rw [drive_iter_mut_trace]
    exact drive_iter_trace_break f l1 l2 x b tr h1 hx

/-- The element results for the claim C10 instance: break with 4 on the
element 2, continue elsewhere. -/
def breakOnTwo : Nat → ControlFlow Nat Unit :=
  fun y => if y = 2 then .Break 4 else .Continue ()

/-- Concrete instance of claim C10: on the list 1, 2, 3 with a visitor that
breaks on 2, drive_iter visits 1 then 2, returns Break 4, and never visits
3; on the all-continue list 1, 3 it visits both in order and continues. -/
theorem c10_drive_iter_witness :
    (drive_iter (traceVisit breakOnTwo) [] [1, 3] = ([] ++ [1, 3], .Continue ())
      ∧ drive_iter_mut (traceVisit breakOnTwo) [] [1, 3]
        = ([] ++ [1, 3], .Continue ()))
    ∧ (drive_iter (traceVisit breakOnTwo) [] ([1] ++ 2 :: [3])
        = (([] ++ [1]) ++ [2], .Break 4)
      ∧ drive_iter_mut (traceVisit breakOnTwo) [] ([1] ++ 2 :: [3])
        = (([] ++ [1]) ++ [2], .Break 4)) :=
  ⟨(c10_drive_iter breakOnTwo [1, 3] [1] [3] 2 4 []).1 (by decide),
   (c10_drive_iter breakOnTwo [1, 3] [1] [3] 2 4 []).2 (by decide) (by decide)⟩

end DeriveGenericVisitor
